import Mathlib

/-!
Verification of the resilient paginated crawler of the `sabeel` repository.

Shallow embedding of:
* `scripts/shamela/utils.py`, class `ShamelaHTTPClient`, method `get`
  (retry loop with exponential backoff);
* `scripts/crawl_specific_books.py`, class `SpecificBooksCrawler`, methods
  `_fetch_url`, `crawl_book` and `crawl_books_from_file`.

Modelling conventions:
* Time is not executed: the embedding records the *durations* the code would
  sleep (the arguments of `time.sleep`) as a list of rationals, in order.
* HTML parsing is abstracted: a fetched page is modelled by its body length
  (the only property the crawler inspects, via `len(html)`) together with the
  section that its next-button link resolves to, if a usable non-disabled
  next button is present (`Page.nextSec`).  The table-of-contents page is
  modelled by the list of section numbers referenced by its embedded
  `/book/{id}/\d+` links, in document order (the order `find_all` returns).
* URLs of the form `base/book/{id}/{sec}` are modelled by the section number
  `sec`; the book id is carried separately.  The regex
  `/book/{book_id}/(\d+)` always matches such URLs, and Python's truthiness
  test `if current_section:` is `sec ≠ 0` in the model.
* Network traffic is observable: every call of `_fetch_url` appends a
  `FetchEvent` to a log carried in the walker state.
-/

set_option autoImplicit false

/-- Outcome of one HTTP attempt inside a retry loop: a successful response
with a parsed body, a response with an error status code (the
`raise_for_status` path), or one of the exception classes the code
distinguishes (`Timeout`, `ConnectionError`, other `RequestException`). -/
inductive HTTPOutcome (α : Type) where
  | ok (body : α)
  | httpStatus (code : Nat)
  | timeout
  | connError
  | reqError
deriving DecidableEq

namespace ShamelaHTTPClient

/-- Embedding of the retry loop of `ShamelaHTTPClient.get`
(`scripts/shamela/utils.py`, lines 48–116).  `outcomes n` is the network's
behaviour on the n-th attempt (0-based).  The result is the returned value
(`none` models Python's `None`) paired with the list of backoff sleeps
performed, in order.  The first `Nat` argument is the current value of
`attempt`, the second the remaining number of loop iterations
(`maxRetries - attempt`); `get` below starts the loop at attempt 0.

Source logic per attempt:
* success: return the parsed body;
* status 404 with `is_404_expected`: return `None` at once;
* a 4xx status other than 404 (after `raise_for_status` raises `HTTPError`):
  return `None` at once, no retry;
* every other failure (unexpected 404, 5xx, timeout, connection error,
  request exception): if this was the last attempt return `None`, else sleep
  `min(self.delay * (2 ** attempt), self.max_backoff)` and retry. -/
def getLoop {α : Type} (delay cap : ℚ) (maxRetries : Nat)
    (outcomes : Nat → HTTPOutcome α) (is404Expected : Bool) :
    Nat → Nat → Option α × List ℚ
  | _, 0 => (none, [])
  | attempt, fuel + 1 =>
    match outcomes attempt with
    | .ok body => (some body, [])
    | .httpStatus code =>
      if code = 404 ∧ is404Expected then (none, [])
      else if 400 ≤ code ∧ code < 500 ∧ code ≠ 404 then (none, [])
      else if attempt = maxRetries - 1 then (none, [])
      else
        let r := getLoop delay cap maxRetries outcomes is404Expected (attempt + 1) fuel
        (r.1, min (delay * 2 ^ attempt) cap :: r.2)
    | _ =>
      if attempt = maxRetries - 1 then (none, [])
      else
        let r := getLoop delay cap maxRetries outcomes is404Expected (attempt + 1) fuel
        (r.1, min (delay * 2 ^ attempt) cap :: r.2)

/-- Embedding of `ShamelaHTTPClient.get`: run the retry loop
`for attempt in range(self.max_retries)` from attempt 0. -/
def get {α : Type} (delay cap : ℚ) (maxRetries : Nat)
    (outcomes : Nat → HTTPOutcome α) (is404Expected : Bool) :
    Option α × List ℚ :=
  getLoop delay cap maxRetries outcomes is404Expected 0 maxRetries

end ShamelaHTTPClient

namespace SpecificBooksCrawler

/-- Embedding of the retry loop of `SpecificBooksCrawler._fetch_url`
(`scripts/crawl_specific_books.py`, lines 60–78).  Any outcome other than a
successful response raises `requests.exceptions.RequestException` (via
`raise_for_status` for error statuses) and is caught by the single generic
handler, which sleeps `2 ** attempt` seconds and retries while
`attempt < max_retries - 1`, else returns `None`. -/
def fetch_urlLoop {α : Type} (maxRetries : Nat) (outcomes : Nat → HTTPOutcome α) :
    Nat → Nat → Option α × List ℚ
  | _, 0 => (none, [])
  | attempt, fuel + 1 =>
    match outcomes attempt with
    | .ok body => (some body, [])
    | _ =>
      if attempt < maxRetries - 1 then
        let r := fetch_urlLoop maxRetries outcomes (attempt + 1) fuel
        (r.1, ((2 : ℚ) ^ attempt) :: r.2)
      else (none, [])

/-- Embedding of `SpecificBooksCrawler._fetch_url` (default
`max_retries = 3`): run the retry loop from attempt 0. -/
def fetch_url {α : Type} (maxRetries : Nat) (outcomes : Nat → HTTPOutcome α) :
    Option α × List ℚ :=
  fetch_urlLoop maxRetries outcomes 0 maxRetries

/-- Abstraction of a successfully fetched section page: the length of its
HTML body (the crawler only ever inspects `len(html)`), and the section that
a usable next button (anchor with class `btn`, text `>`, an `href`, and not
disabled) resolves to after base-resolution and fragment stripping, or
`none` when no such button is found. -/
structure Page where
  length : Nat
  nextSec : Option Nat
deriving DecidableEq

/-- Abstraction of the remote site for one crawl.
* `pages b s` is what `_fetch_url` returns for URL `base/book/b/s`:
  `none` when the fetch fails (all retries exhausted), otherwise the page.
* `toc b` is what fetching `base/book/b` yields: `none` when the fetch
  fails, otherwise the list of section numbers referenced by the TOC's
  embedded `/book/b/\d+` links in document order (possibly empty).
Fetching is deterministic within a run: refetching the same URL yields the
same result. -/
structure Remote where
  pages : Nat → Nat → Option Page
  toc : Nat → Option (List Nat)

/-- Network fetch event, tagged by its call site in `crawl_book`:
the section-1 start probe, the TOC fetch of the fallback path, the fetch of
the walk loop's current candidate, and the no-next-button sequential
existence probe.  Every constructor except `tocFetch` fetches the page URL
of the named section. -/
inductive FetchEvent where
  | startProbe (bookId sec : Nat)
  | tocFetch (bookId : Nat)
  | currentFetch (bookId sec : Nat)
  | nextProbe (bookId sec : Nat)
deriving DecidableEq

/-- Entries the code appends to `metadata['errors']`. -/
inductive CrawlErr where
  | tocAndSection1Failed
  | noContentLinks
  | fetchSectionFailed (sec : Nat)
deriving DecidableEq

/-- Values of `metadata['status']`. -/
inductive CrawlStatus where
  | inProgress
  | complete
  | failed
deriving DecidableEq

/-- State of the walk loop of `crawl_book` (lines 188–297), together with
the store of persisted section artifacts and the log of fetch events.
`current = none` models `current_url` being `None` (or the `break`).
`visited` and `store` are lists used as sets of section numbers of this
book. -/
structure WalkState where
  current : Option Nat
  visited : List Nat
  pageNumber : Nat
  failures : Nat
  totalPages : Nat
  errors : List CrawlErr
  store : List Nat
  log : List FetchEvent
deriving DecidableEq

/-- The fixed ceiling `max_consecutive_failures = 5`. -/
def maxConsecutiveFailures : Nat := 5

/-- One iteration of the walk loop of `crawl_book`.  Returns `none` when the
`while` condition fails at the top of the iteration (loop exit), otherwise
the state at the next iteration.  Faithful to the source:
* exit when `current_url` is `None`, already visited, or
  `consecutive_failures ≥ 5`;
* if the section is truthy (`≠ 0`) and its artifact file exists, skip the
  download: add to visited, bump `total_pages` and `page_number`, advance to
  section + 1 — neither the fetcher nor the failure counter is touched;
* otherwise fetch the URL; a missing (`None`) or short (`< 500`) body logs a
  `fetchSectionFailed` error, bumps the failure counter and advances
  sequentially (or breaks when the section is 0);
* on success the counter resets to 0, the page is persisted, and the next
  candidate is the next button's target; with no next button the code probes
  section + 1 over the network and accepts it only when the probe body
  length is `> 500`. -/
def walkStep (R : Remote) (b : Nat) (st : WalkState) : Option WalkState :=
  match st.current with
  | none => none
  | some u =>
    if u ∈ st.visited then none
    else if maxConsecutiveFailures ≤ st.failures then none
    else if u ≠ 0 ∧ u ∈ st.store then
      some { st with
        visited := u :: st.visited
        totalPages := st.totalPages + 1
        current := some (u + 1)
        pageNumber := st.pageNumber + 1 }
    else
      match R.pages b u with
      | none =>
        some { st with
          errors := st.errors ++ [CrawlErr.fetchSectionFailed u]
          visited := u :: st.visited
          failures := st.failures + 1
          current := if u ≠ 0 then some (u + 1) else none
          log := st.log ++ [FetchEvent.currentFetch b u] }
      | some p =>
        if p.length < 500 then
          some { st with
            errors := st.errors ++ [CrawlErr.fetchSectionFailed u]
            visited := u :: st.visited
            failures := st.failures + 1
            current := if u ≠ 0 then some (u + 1) else none
            log := st.log ++ [FetchEvent.currentFetch b u] }
        else
          let stS : WalkState := { st with
            failures := 0
            visited := u :: st.visited
            store := u :: st.store
            totalPages := st.totalPages + 1
            pageNumber := st.pageNumber + 1
            log := st.log ++ [FetchEvent.currentFetch b u] }
          match p.nextSec with
          | some n => some { stS with current := some n }
          | none =>
            if u ≠ 0 then
              match R.pages b (u + 1) with
              | some q =>
                some { stS with
                  current := if 500 < q.length then some (u + 1) else none
                  log := stS.log ++ [FetchEvent.nextProbe b (u + 1)] }
              | none =>
                some { stS with
                  current := none
                  log := stS.log ++ [FetchEvent.nextProbe b (u + 1)] }
            else some { stS with current := none }

/-- The walk loop, run for at most `fuel` iterations.  The Python loop has
no fuel; every theorem below that runs the loop to completion only does so
in situations where the loop provably exits within the supplied fuel. -/
def walkLoop (R : Remote) (b : Nat) : Nat → WalkState → WalkState
  | 0, st => st
  | fuel + 1, st =>
    match walkStep R b st with
    | none => st
    | some st' => walkLoop R b fuel st'

/-- Outcome of start discovery (lines 156–186): the chosen starting section,
or one of the two failure exits. -/
inductive StartOutcome where
  | startAt (sec : Nat)
  | failedTocFetch
  | failedNoLinks
deriving DecidableEq

/-- Start discovery of `crawl_book`: always probe section 1 first; when its
body is missing or shorter than 500 characters, fetch the TOC page and take
the FIRST embedded content link in document order (`content_links[0]`).
Returns the outcome and the fetch events issued. -/
def startDiscovery (R : Remote) (b : Nat) : StartOutcome × List FetchEvent :=
  let log0 := [FetchEvent.startProbe b 1]
  let fallback : StartOutcome × List FetchEvent :=
    match R.toc b with
    | none => (.failedTocFetch, log0 ++ [FetchEvent.tocFetch b])
    | some [] => (.failedNoLinks, log0 ++ [FetchEvent.tocFetch b])
    | some (l :: _) => (.startAt l, log0 ++ [FetchEvent.tocFetch b])
  match R.pages b 1 with
  | none => fallback
  | some p => if p.length < 500 then fallback else (.startAt 1, log0)

/-- Result of `crawl_book`: the persisted metadata record (status,
`total_pages`, `errors`), the boolean return value, the store after the run
and the full fetch log. -/
structure CrawlResult where
  status : CrawlStatus
  totalPages : Nat
  errors : List CrawlErr
  success : Bool
  store : List Nat
  log : List FetchEvent
deriving DecidableEq

/-- The unconditional postlude of the walk loop (lines 289–297): whatever
state the loop exits in, the metadata status is set to `complete` and
`crawl_book` returns `True`. -/
def finishWalk (fin : WalkState) : CrawlResult :=
  { status := .complete
    totalPages := fin.totalPages
    errors := fin.errors
    success := true
    store := fin.store
    log := fin.log }

/-- Embedding of `SpecificBooksCrawler.crawl_book` for book `b`, starting
from a store `store0` of already persisted section artifacts. -/
def crawl_book (R : Remote) (b : Nat) (store0 : List Nat) (fuel : Nat) :
    CrawlResult :=
  match startDiscovery R b with
  | (.failedTocFetch, log) =>
    { status := .failed, totalPages := 0
      errors := [CrawlErr.tocAndSection1Failed]
      success := false, store := store0, log := log }
  | (.failedNoLinks, log) =>
    { status := .failed, totalPages := 0
      errors := [CrawlErr.noContentLinks]
      success := false, store := store0, log := log }
  | (.startAt s, log) =>
    finishWalk (walkLoop R b fuel
      { current := some s, visited := [], pageNumber := 1, failures := 0
        totalPages := 0, errors := [], store := store0, log := log })

/-- Snapshot of one `_save_metadata` call: the record written to
`book_{id}_meta.json`. -/
structure MetaWrite where
  status : CrawlStatus
  totalPages : Nat
  errors : List CrawlErr
deriving DecidableEq

/-- Exception-aware variant of `walkStep`.  `crawl_book` contains no
`try`/`except`, so an unexpected exception raised inside the loop — modelled
here as `_save_html` raising when persisting section `u` with
`saveErr u = some e` — propagates out of the whole walk.  All other
behaviour is exactly `walkStep`. -/
def walkStepE (R : Remote) (b : Nat) (saveErr : Nat → Option Nat)
    (st : WalkState) : Except Nat (Option WalkState) :=
  match st.current with
  | none => .ok none
  | some u =>
    if u ∈ st.visited then .ok none
    else if maxConsecutiveFailures ≤ st.failures then .ok none
    else if u ≠ 0 ∧ u ∈ st.store then
      .ok (some { st with
        visited := u :: st.visited
        totalPages := st.totalPages + 1
        current := some (u + 1)
        pageNumber := st.pageNumber + 1 })
    else
      match R.pages b u with
      | none =>
        .ok (some { st with
          errors := st.errors ++ [CrawlErr.fetchSectionFailed u]
          visited := u :: st.visited
          failures := st.failures + 1
          current := if u ≠ 0 then some (u + 1) else none
          log := st.log ++ [FetchEvent.currentFetch b u] })
      | some p =>
        if p.length < 500 then
          .ok (some { st with
            errors := st.errors ++ [CrawlErr.fetchSectionFailed u]
            visited := u :: st.visited
            failures := st.failures + 1
            current := if u ≠ 0 then some (u + 1) else none
            log := st.log ++ [FetchEvent.currentFetch b u] })
        else
          match saveErr u with
          | some e => .error e
          | none =>
            let stS : WalkState := { st with
              failures := 0
              visited := u :: st.visited
              store := u :: st.store
              totalPages := st.totalPages + 1
              pageNumber := st.pageNumber + 1
              log := st.log ++ [FetchEvent.currentFetch b u] }
            match p.nextSec with
            | some n => .ok (some { stS with current := some n })
            | none =>
              if u ≠ 0 then
                match R.pages b (u + 1) with
                | some q =>
                  .ok (some { stS with
                    current := if 500 < q.length then some (u + 1) else none
                    log := stS.log ++ [FetchEvent.nextProbe b (u + 1)] })
                | none =>
                  .ok (some { stS with
                    current := none
                    log := stS.log ++ [FetchEvent.nextProbe b (u + 1)] })
              else .ok (some { stS with current := none })

/-- Exception-aware walk loop: an exception raised by a step propagates. -/
def walkLoopE (R : Remote) (b : Nat) (saveErr : Nat → Option Nat) :
    Nat → WalkState → Except Nat WalkState
  | 0, st => .ok st
  | fuel + 1, st =>
    match walkStepE R b saveErr st with
    | .error e => .error e
    | .ok none => .ok st
    | .ok (some st') => walkLoopE R b saveErr fuel st'

/-- Exception-aware embedding of `crawl_book`: the boolean result or the
propagated exception, paired with the list of metadata records written by
`_save_metadata` during the call.  The two start-discovery failure exits
write a `failed` record and return `False`; a normal loop exit writes a
`complete` record and returns `True`; an exception inside the loop
propagates before the final `_save_metadata`, so nothing is written. -/
def crawl_bookE (R : Remote) (b : Nat) (saveErr : Nat → Option Nat)
    (store0 : List Nat) (fuel : Nat) :
    Except Nat Bool × List MetaWrite :=
  match startDiscovery R b with
  | (.failedTocFetch, _) =>
    (.ok false, [{ status := .failed, totalPages := 0
                   errors := [CrawlErr.tocAndSection1Failed] }])
  | (.failedNoLinks, _) =>
    (.ok false, [{ status := .failed, totalPages := 0
                   errors := [CrawlErr.noContentLinks] }])
  | (.startAt s, log) =>
    match walkLoopE R b saveErr fuel
      { current := some s, visited := [], pageNumber := 1, failures := 0
        totalPages := 0, errors := [], store := store0, log := log } with
    | .error e => (.error e, [])
    | .ok fin =>
      (.ok true, [{ status := .complete, totalPages := fin.totalPages
                    errors := fin.errors }])

/-- Handling of one completed future in `crawl_books_from_file`
(lines 327–341): `future.result()` either returns the book's boolean, which
bumps the completed or the failed counter, or re-raises the book's
exception, which the pool's own `except` catches and counts as failed. -/
def poolStep (run : Nat → Except Nat Bool × List MetaWrite)
    (acc : Nat × Nat) (id : Nat) : Nat × Nat :=
  match (run id).1 with
  | .ok true => (acc.1 + 1, acc.2)
  | .ok false => (acc.1, acc.2 + 1)
  | .error _ => (acc.1, acc.2 + 1)

/-- Embedding of the result-collection loop of `crawl_books_from_file`:
every submitted book is processed and counted; the result is
`(completed, failed)`.  `as_completed` order is irrelevant to the counts, so
the books are folded in submission order. -/
def crawl_books_from_file (run : Nat → Except Nat Bool × List MetaWrite)
    (ids : List Nat) : Nat × Nat :=
  ids.foldl (poolStep run) (0, 0)

/-- Test used by the pool's bookkeeping: did the book's future yield a
successful `True` result (as opposed to `False` or a raised exception)? -/
def isOkTrue (x : Except Nat Bool) : Bool :=
  match x with
  | .ok true => true
  | _ => false

/-- Iterated effect on the walker state of `k` consecutive
artifact-already-exists skip steps starting at section `s`: each step marks
the section visited, counts the page, and advances to the next sequential
section; the failure counter, the store, and the fetch log are untouched. -/
def skipAdvance : Nat → Nat → WalkState → WalkState
  | _, 0, st => st
  | s, k + 1, st =>
    skipAdvance (s + 1) k { st with
      visited := s :: st.visited
      totalPages := st.totalPages + 1
      current := some (s + 1)
      pageNumber := st.pageNumber + 1 }

/-- Iterated effect on the walker state of `k` consecutive failed-fetch
steps starting at section `s`: each step logs the error and the fetch,
marks the section visited, bumps the failure counter and advances to the
next sequential section. -/
def failAdvance (b : Nat) : Nat → Nat → WalkState → WalkState
  | _, 0, st => st
  | s, k + 1, st =>
    failAdvance b (s + 1) k { st with
      errors := st.errors ++ [CrawlErr.fetchSectionFailed s]
      visited := s :: st.visited
      failures := st.failures + 1
      current := some (s + 1)
      log := st.log ++ [FetchEvent.currentFetch b s] }

/-- Condition under which the walk loop counts the fetch of section `u` as
failed (`if not html or len(html) < 500`): `_fetch_url` returned `None` or
the body is shorter than 500 characters. -/
def fetchFailsB (R : Remote) (b u : Nat) : Bool :=
  match R.pages b u with
  | none => true
  | some p => decide (p.length < 500)

/-- Condition under which start discovery rejects the direct section-1 start
(`if not test_html or len(test_html) < 500`). -/
def section1Unusable (R : Remote) (b : Nat) : Bool :=
  match R.pages b 1 with
  | none => true
  | some p => decide (p.length < 500)

end SpecificBooksCrawler

/-- Attempt outcomes for a fetch that always receives HTTP 403
(a 4xx status other than 404). -/
def out403 : Nat → HTTPOutcome Unit := fun _ => HTTPOutcome.httpStatus 403

/-! Helper lemmas about the two retry loops. -/

/-- The i-th backoff sleep recorded by the loop of `ShamelaHTTPClient.get`,
entered at `attempt`, is `min (delay * 2 ^ (attempt + i)) cap`. -/
theorem getLoop_waits {α : Type} (delay cap : ℚ) (mr : Nat)
    (out : Nat → HTTPOutcome α) (e : Bool) :
    ∀ (fuel attempt i : Nat) (w : ℚ),
      ((ShamelaHTTPClient.getLoop delay cap mr out e attempt fuel).2).get? i
        = some w →
      w = min (delay * 2 ^ (attempt + i)) cap := by
  intro fuel
  induction fuel with
  | zero =>
    intro attempt i w h
    simp [ShamelaHTTPClient.getLoop] at h
  | succ fuel ih =>
    intro attempt i w h
    cases hout : out attempt with
    | ok body =>
      simp [ShamelaHTTPClient.getLoop, hout] at h
    | httpStatus code =>
      simp only [ShamelaHTTPClient.getLoop, hout] at h
      split_ifs at h with h1 h2 h3
      · simp at h
      · simp at h
      · simp at h
      · cases i with
        | zero =>
          simp at h
          simpa [Nat.add_zero] using h.symm
        | succ i =>
          simp only [List.get?_cons_succ] at h
          have hrec := ih (attempt + 1) i w h
          have hexp : attempt + (i + 1) = (attempt + 1) + i := by omega
          rw [hexp]
          exact hrec
    | timeout =>
      simp only [ShamelaHTTPClient.getLoop, hout] at h
      split_ifs at h with h1
      · simp at h
      · cases i with
        | zero =>
          simp at h
          simpa [Nat.add_zero] using h.symm
        | succ i =>
          simp only [List.get?_cons_succ] at h
          have hrec := ih (attempt + 1) i w h
          have hexp : attempt + (i + 1) = (attempt + 1) + i := by omega
          rw [hexp]
          exact hrec
    | connError =>
      simp only [ShamelaHTTPClient.getLoop, hout] at h
      split_ifs at h with h1
      · simp at h
      · cases i with
        | zero =>
          simp at h
          simpa [Nat.add_zero] using h.symm
        | succ i =>
          simp only [List.get?_cons_succ] at h
          have hrec := ih (attempt + 1) i w h
          have hexp : attempt + (i + 1) = (attempt + 1) + i := by omega
          rw [hexp]
          exact hrec
    | reqError =>
      simp only [ShamelaHTTPClient.getLoop, hout] at h
      split_ifs at h with h1
      · simp at h
      · cases i with
        | zero =>
          simp at h
          simpa [Nat.add_zero] using h.symm
        | succ i =>
          simp only [List.get?_cons_succ] at h
          have hrec := ih (attempt + 1) i w h
          have hexp : attempt + (i + 1) = (attempt + 1) + i := by omega
          rw [hexp]
          exact hrec

/-- The k-th backoff sleep recorded by the loop of
`SpecificBooksCrawler._fetch_url`, entered at `attempt`, is
`2 ^ (attempt + k)` seconds: no base-delay factor and no cap. -/
theorem fetch_urlLoop_waits {α : Type} (mr : Nat) (out : Nat → HTTPOutcome α) :
    ∀ (fuel attempt k : Nat) (w : ℚ),
      ((SpecificBooksCrawler.fetch_urlLoop mr out attempt fuel).2).get? k
        = some w →
      w = 2 ^ (attempt + k) := by
  intro fuel
  induction fuel with
  | zero =>
    intro attempt k w h
    simp [SpecificBooksCrawler.fetch_urlLoop] at h
  | succ fuel ih =>
    intro attempt k w h
    cases hout : out attempt with
    | ok body =>
      simp [SpecificBooksCrawler.fetch_urlLoop, hout] at h
    | httpStatus code =>
      simp only [SpecificBooksCrawler.fetch_urlLoop, hout] at h
      split_ifs at h with h1
      · cases k with
        | zero =>
          simp at h
          simpa [Nat.add_zero] using h.symm
        | succ k =>
          simp only [List.get?_cons_succ] at h
          have hrec := ih (attempt + 1) k w h
          have hexp : attempt + (k + 1) = (attempt + 1) + k := by omega
          rw [hexp]
          exact hrec
      · simp at h
    | timeout =>
      simp only [SpecificBooksCrawler.fetch_urlLoop, hout] at h
      split_ifs at h with h1
      · cases k with
        | zero =>
          simp at h
          simpa [Nat.add_zero] using h.symm
        | succ k =>
          simp only [List.get?_cons_succ] at h
          have hrec := ih (attempt + 1) k w h
          have hexp : attempt + (k + 1) = (attempt + 1) + k := by omega
          rw [hexp]
          exact hrec
      · simp at h
    | connError =>
      simp only [SpecificBooksCrawler.fetch_urlLoop, hout] at h
      split_ifs at h with h1
      · cases k with
        | zero =>
          simp at h
          simpa [Nat.add_zero] using h.symm
        | succ k =>
          simp only [List.get?_cons_succ] at h
          have hrec := ih (attempt + 1) k w h
          have hexp : attempt + (k + 1) = (attempt + 1) + k := by omega
          rw [hexp]
          exact hrec
      · simp at h
    | reqError =>
      simp only [SpecificBooksCrawler.fetch_urlLoop, hout] at h
      split_ifs at h with h1
      · cases k with
        | zero =>
          simp at h
          simpa [Nat.add_zero] using h.symm
        | succ k =>
          simp only [List.get?_cons_succ] at h
          have hrec := ih (attempt + 1) k w h
          have hexp : attempt + (k + 1) = (attempt + 1) + k := by omega
          rw [hexp]
          exact hrec
      · simp at h

/-- C5: for every retried fetch of one address, the wait before attempt
`i + 1` equals `min (base_delay * 2 ^ i) max_backoff`, non-decreasing in `i`
until it reaches the cap.  First two conjuncts: in `ShamelaHTTPClient.get`
the i-th recorded sleep is exactly `min (delay * 2 ^ i) max_backoff` and the
sleeps are non-decreasing.  Third conjunct: the crawl script's own
`_fetch_url` sleeps `2 ^ k` seconds before retry `k + 1`, which instantiates
the same formula with base delay 1 whenever the cap is not yet reached
(`_fetch_url` itself never caps: with its `max_retries = 3` the waits stay
at 1 s and 2 s). -/
theorem backoff_wait_monotone_formula {α : Type} (delay cap : ℚ)
    (hd : 0 ≤ delay) (mr : Nat) (out : Nat → HTTPOutcome α) (e : Bool)
    (i j : Nat) (hij : i ≤ j) (wi wj : ℚ)
    (hi : ((ShamelaHTTPClient.get delay cap mr out e).2).get? i = some wi)
    (hj : ((ShamelaHTTPClient.get delay cap mr out e).2).get? j = some wj) :
    wi = min (delay * 2 ^ i) cap ∧ wi ≤ wj ∧
    (∀ (fo : Nat → HTTPOutcome α) (k : Nat) (w : ℚ),
      ((SpecificBooksCrawler.fetch_url mr fo).2).get? k = some w →
      (2 : ℚ) ^ k ≤ cap → w = min (1 * 2 ^ k) cap) := by
  have h1 : wi = min (delay * 2 ^ i) cap := by
    have hx := getLoop_waits delay cap mr out e mr 0 i wi hi
    simpa using hx
  have h2 : wj = min (delay * 2 ^ j) cap := by
    have hx := getLoop_waits delay cap mr out e mr 0 j wj hj
    simpa using hx
  refine ⟨h1, ?_, ?_⟩
  · rw [h1, h2]
    refine min_le_min ?_ le_rfl
    refine mul_le_mul_of_nonneg_left ?_ hd
    exact pow_le_pow_right₀ (by norm_num) hij
  · intro fo k w hw hcap
    have hx := fetch_urlLoop_waits mr fo mr 0 k w hw
    rw [hx, one_mul, min_eq_left hcap]
    simp

/-- C5 witness: with base delay 3/2, cap 30 and all attempts timing out, the
first sleep of `ShamelaHTTPClient.get` is `3/2 = min (3/2 * 2 ^ 0) 30` and it
is at most the second sleep 3. -/
theorem backoff_wait_monotone_formula_witness :
    (3 : ℚ) / 2 = min ((3 : ℚ) / 2 * 2 ^ 0) 30 ∧ (3 : ℚ) / 2 ≤ 3 := by
  have hmin0 : min ((3 : ℚ) / 2 * 2 ^ 0) 30 = 3 / 2 := by
    rw [min_eq_left (by norm_num)]
    norm_num
  have hmin1 : min ((3 : ℚ) / 2 * 2 ^ 1) 30 = 3 := by
    rw [min_eq_left (by norm_num)]
    norm_num
  have hi : ((ShamelaHTTPClient.get ((3 : ℚ) / 2) 30 5
      (fun _ => (HTTPOutcome.timeout : HTTPOutcome Unit)) false).2).get? 0
        = some ((3 : ℚ) / 2) := by
    simp [ShamelaHTTPClient.get, ShamelaHTTPClient.getLoop, hmin0]
    norm_num
  have hj : ((ShamelaHTTPClient.get ((3 : ℚ) / 2) 30 5
      (fun _ => (HTTPOutcome.timeout : HTTPOutcome Unit)) false).2).get? 1
        = some (3 : ℚ) := by
    simp [ShamelaHTTPClient.get, ShamelaHTTPClient.getLoop, hmin1]
    norm_num
  have h := backoff_wait_monotone_formula ((3 : ℚ) / 2) 30 (by norm_num) 5
    (fun _ => (HTTPOutcome.timeout : HTTPOutcome Unit)) false 0 1
    (by norm_num) ((3 : ℚ) / 2) 3 hi hj
  exact ⟨h.1, h.2.1⟩


/-- C6 counterexample: the crawl script's fetcher `_fetch_url` DOES retry a
4xx response other than 404.  `raise_for_status` raises `HTTPError`, a
subclass of `RequestException`, and the single generic handler retries it:
with `max_retries = 3` and every attempt returning 403, the fetcher sleeps
twice (1 s, then 2 s) before giving up, refuting "returns a terminal failure
for that address immediately, without any further attempts". -/
theorem client_error_no_retry_counterexample :
    (SpecificBooksCrawler.fetch_url 3 out403).2 = [(1 : ℚ), 2] ∧
    (SpecificBooksCrawler.fetch_url 3 out403).2 ≠ [] := by
  constructor
  · simp [SpecificBooksCrawler.fetch_url, SpecificBooksCrawler.fetch_urlLoop,
      out403]
  · simp [SpecificBooksCrawler.fetch_url, SpecificBooksCrawler.fetch_urlLoop,
      out403]

/-- C6 amended: `ShamelaHTTPClient.get` does not retry a 4xx response other
than 404 — on such a status at any attempt it returns `None` at once, with
no backoff sleep and no further attempts (first conjunct); but the crawl
script's own `_fetch_url` treats every failed attempt, including a 4xx ≠ 404
HTTP error, as retryable: below its last attempt it sleeps `2 ^ attempt`
seconds and continues with the next attempt (second conjunct). -/
theorem client_error_no_retry_amended :
    (∀ (α : Type) (delay cap : ℚ) (mr : Nat) (out : Nat → HTTPOutcome α)
       (e : Bool) (attempt fuel c : Nat),
       400 ≤ c → c < 500 → c ≠ 404 → out attempt = HTTPOutcome.httpStatus c →
       ShamelaHTTPClient.getLoop delay cap mr out e attempt (fuel + 1)
         = (none, [])) ∧
    (∀ (α : Type) (mr : Nat) (out : Nat → HTTPOutcome α)
       (attempt fuel c : Nat),
       out attempt = HTTPOutcome.httpStatus c → attempt < mr - 1 →
       (SpecificBooksCrawler.fetch_urlLoop mr out attempt (fuel + 1)).2 =
         (2 : ℚ) ^ attempt ::
           (SpecificBooksCrawler.fetch_urlLoop mr out (attempt + 1) fuel).2) := by
  constructor
  · intro α delay cap mr out e attempt fuel c h4 h5 h6 hout
    simp only [ShamelaHTTPClient.getLoop, hout]
    rw [if_neg (fun hh => h6 hh.1), if_pos ⟨h4, h5, h6⟩]
  · intro α mr out attempt fuel c hout hlt
    simp only [SpecificBooksCrawler.fetch_urlLoop, hout, if_pos hlt]

/-- C6 witness: at 403 the client fetcher stops at once with no sleeps,
while `_fetch_url` (max_retries 3) sleeps 1 s and goes on to attempt 1. -/
theorem client_error_no_retry_amended_witness :
    ShamelaHTTPClient.getLoop ((3 : ℚ) / 2) 30 5 out403 false 0 5
      = (none, []) ∧
    (SpecificBooksCrawler.fetch_urlLoop 3 out403 0 3).2 =
      (2 : ℚ) ^ 0 :: (SpecificBooksCrawler.fetch_urlLoop 3 out403 1 2).2 := by
  constructor
  · exact client_error_no_retry_amended.1 Unit ((3 : ℚ) / 2) 30 5 out403
      false 0 4 403 (by norm_num) (by norm_num) (by norm_num) rfl
  · exact client_error_no_retry_amended.2 Unit 3 out403 0 2 403 rfl
      (by norm_num)

open SpecificBooksCrawler

/-- C7: if the candidate next address is already in the visited set of this
run, the walk terminates rather than revisiting it or looping: the while
condition `current_url not in visited_urls` fails at the top of the
iteration, so the loop exits with the state (including the fetch log)
unchanged. -/
theorem visited_cycle_guard (R : Remote) (b : Nat) (st : WalkState) (u : Nat)
    (hc : st.current = some u) (hv : u ∈ st.visited) (fuel : Nat) :
    walkLoop R b fuel st = st := by
  cases fuel with
  | zero => rfl
  | succ fuel => simp [walkLoop, walkStep, hc, hv]

/-- C7 witness: a walk whose current candidate 3 is already visited stops at
once, leaving the state untouched. -/
theorem visited_cycle_guard_witness :
    walkLoop ⟨fun _ _ => none, fun _ => none⟩ 9 10
      ⟨some 3, [3], 1, 0, 0, [], [], []⟩ =
      ⟨some 3, [3], 1, 0, 0, [], [], []⟩ :=
  visited_cycle_guard _ 9 _ 3 rfl (by decide) 10

/-- C8: a walker step whose candidate section (positive, as section indices
are) already has a persisted artifact advances directly to the sequential
next candidate without invoking the fetcher: the new state is the old one
with the section marked visited, the page counted and the candidate set to
`u + 1`; in particular the fetch log and the consecutive-failure counter are
unchanged, so no network call occurs in that step. -/
theorem store_skip_no_fetch (R : Remote) (b : Nat) (st : WalkState) (u : Nat)
    (hc : st.current = some u) (h0 : u ≠ 0) (hs : u ∈ st.store)
    (hv : u ∉ st.visited) (hf : st.failures < maxConsecutiveFailures) :
    walkStep R b st = some { st with
      visited := u :: st.visited
      totalPages := st.totalPages + 1
      current := some (u + 1)
      pageNumber := st.pageNumber + 1 } ∧
    (∀ st', walkStep R b st = some st' →
      st'.log = st.log ∧ st'.failures = st.failures ∧
      st'.current = some (u + 1) ∧ st'.totalPages = st.totalPages + 1) := by
  have hf' : ¬ (maxConsecutiveFailures ≤ st.failures) := Nat.not_le.mpr hf
  have h1 : walkStep R b st = some { st with
      visited := u :: st.visited
      totalPages := st.totalPages + 1
      current := some (u + 1)
      pageNumber := st.pageNumber + 1 } := by
    simp [walkStep, hc, hv, hs, h0, hf']
  refine ⟨h1, ?_⟩
  intro st' hst'
  rw [h1] at hst'
  injection hst' with hst'
  subst hst'
  exact ⟨rfl, rfl, rfl, rfl⟩

/-- C8 witness: with section 2 persisted, the step skips the download and
moves straight to section 3. -/
theorem store_skip_no_fetch_witness :
    walkStep ⟨fun _ _ => none, fun _ => none⟩ 9
      ⟨some 2, [], 1, 0, 0, [], [2], []⟩ =
      some ⟨some 3, [2], 2, 0, 1, [], [2], []⟩ :=
  (store_skip_no_fetch ⟨fun _ _ => none, fun _ => none⟩ 9
    ⟨some 2, [], 1, 0, 0, [], [2], []⟩ 2 rfl (by decide) (by decide)
    (by decide) (by decide)).1

/-- C10: in the walk loop a fetched body counts as a successful page iff its
length is at least 500 (`if not html or len(html) < 500`), while the
no-next-button sequential probe accepts only a body strictly longer than 500
(`if test_html and len(test_html) > 500`).  First conjunct: a body of length
at least 500 is persisted, counted, and resets the failure counter (next
button present).  Second conjunct: same success handling with no next
button, where the probe of section `u + 1` is accepted exactly when its body
length exceeds 500 — so a 500-character body is accepted as a current page
but rejected by the probe.  Third conjunct: a body shorter than 500
increments the consecutive-failure counter and is not persisted even though
the HTTP request succeeded. -/
theorem body_length_gate (R : Remote) (b : Nat) (st : WalkState) (u : Nat)
    (p : Page) (hc : st.current = some u) (hv : u ∉ st.visited)
    (hf : st.failures < maxConsecutiveFailures)
    (hns : ¬ (u ≠ 0 ∧ u ∈ st.store)) (hp : R.pages b u = some p) :
    (∀ n : Nat, 500 ≤ p.length → p.nextSec = some n →
      walkStep R b st = some { st with
        failures := 0
        visited := u :: st.visited
        store := u :: st.store
        totalPages := st.totalPages + 1
        pageNumber := st.pageNumber + 1
        log := st.log ++ [FetchEvent.currentFetch b u]
        current := some n }) ∧
    (∀ q : Page, 500 ≤ p.length → p.nextSec = none → u ≠ 0 →
      R.pages b (u + 1) = some q →
      walkStep R b st = some { st with
        failures := 0
        visited := u :: st.visited
        store := u :: st.store
        totalPages := st.totalPages + 1
        pageNumber := st.pageNumber + 1
        current := if 500 < q.length then some (u + 1) else none
        log := (st.log ++ [FetchEvent.currentFetch b u])
          ++ [FetchEvent.nextProbe b (u + 1)] }) ∧
    (p.length < 500 →
      walkStep R b st = some { st with
        errors := st.errors ++ [CrawlErr.fetchSectionFailed u]
        visited := u :: st.visited
        failures := st.failures + 1
        current := if u ≠ 0 then some (u + 1) else none
        log := st.log ++ [FetchEvent.currentFetch b u] }) := by
  have hf' : ¬ (maxConsecutiveFailures ≤ st.failures) := Nat.not_le.mpr hf
  refine ⟨?_, ?_, ?_⟩
  · intro n hlen hnext
    have hlen' : ¬ (p.length < 500) := Nat.not_lt.mpr hlen
    simp [walkStep, hc, hv, hf', hns, hp, hlen', hnext]
  · intro q hlen hnext h0 hq
    have hlen' : ¬ (p.length < 500) := Nat.not_lt.mpr hlen
    have hstore : u ∉ st.store := fun hin => hns ⟨h0, hin⟩
    simp [walkStep, hc, hv, hf', hns, hstore, hp, hlen', hnext, h0, hq]
  · intro hlen
    simp [walkStep, hc, hv, hf', hns, hp, hlen]

/-- C10 witness: a fetched body of exactly 500 characters with no next
button is accepted as the current page (persisted, counted, counter reset),
while the sequential probe of the next section, also returning exactly 500
characters, is rejected, ending the walk. -/
theorem body_length_gate_witness :
    walkStep
      ⟨fun _ s => if s = 2 then some ⟨500, none⟩
                  else if s = 3 then some ⟨500, some 9⟩ else none,
       fun _ => none⟩ 5
      ⟨some 2, [], 1, 0, 0, [], [], []⟩ =
      some ⟨none, [2], 2, 0, 1, [],
        [2], [FetchEvent.currentFetch 5 2, FetchEvent.nextProbe 5 3]⟩ := by
  have h := (body_length_gate
    ⟨fun _ s => if s = 2 then some ⟨500, none⟩
                else if s = 3 then some ⟨500, some 9⟩ else none,
     fun _ => none⟩ 5
    ⟨some 2, [], 1, 0, 0, [], [], []⟩ 2 ⟨500, none⟩ rfl (by decide)
    (by decide) (by decide) (by decide)).2.1 ⟨500, some 9⟩ (by decide) rfl
    (by decide) (by decide)
  simpa using h

/-- C9: when a walker step skips a candidate because its artifact exists,
the next candidate is always the sequential section + 1 of the same book and
the cached page's own next link is never consulted: `k` consecutive cached
sections starting at `s` are traversed in strictly sequential index order,
identically for EVERY remote (first conjunct quantifies over the remote, so
the pages' navigation links cannot influence the walk), with no fetch
logged, the failure counter untouched, and the candidate left at `s + k`. -/
theorem cached_prefix_sequential (b : Nat) :
    ∀ (k s : Nat) (st : WalkState) (fuel : Nat),
      st.current = some s → 0 < s →
      (∀ i, i < k → s + i ∈ st.store) →
      (∀ i, i < k → s + i ∉ st.visited) →
      st.failures < maxConsecutiveFailures →
      k ≤ fuel →
      (∀ R : Remote, walkLoop R b fuel st
        = walkLoop R b (fuel - k) (skipAdvance s k st)) ∧
      (skipAdvance s k st).current = some (s + k) ∧
      (skipAdvance s k st).log = st.log ∧
      (skipAdvance s k st).failures = st.failures ∧
      (skipAdvance s k st).store = st.store ∧
      (skipAdvance s k st).totalPages = st.totalPages + k := by
  intro k
  induction k with
  | zero =>
    intro s st fuel hc hs hstore hvis hf hfuel
    refine ⟨fun R => by simp [skipAdvance], ?_, rfl, rfl, rfl, by
      simp [skipAdvance]⟩
    simpa [skipAdvance] using hc
  | succ k ih =>
    intro s st fuel hc hs hstore hvis hf hfuel
    have hs0 : s ∈ st.store := by simpa using hstore 0 (Nat.succ_pos k)
    have hv0 : s ∉ st.visited := by simpa using hvis 0 (Nat.succ_pos k)
    have hne : s ≠ 0 := Nat.pos_iff_ne_zero.mp hs
    have hf' : ¬ (maxConsecutiveFailures ≤ st.failures) := Nat.not_le.mpr hf
    obtain ⟨fuel', rfl⟩ : ∃ f', fuel = f' + 1 := ⟨fuel - 1, by omega⟩
    set st1 : WalkState := { st with
      visited := s :: st.visited
      totalPages := st.totalPages + 1
      current := some (s + 1)
      pageNumber := st.pageNumber + 1 } with hst1
    have hstep : ∀ R : Remote, walkStep R b st = some st1 := by
      intro R
      simp [walkStep, hc, hv0, hs0, hne, hf', hst1]
    have hstore1 : ∀ i, i < k → (s + 1) + i ∈ st1.store := by
      intro i hik
      have := hstore (i + 1) (by omega)
      have hx : (s + 1) + i = s + (i + 1) := by omega
      rw [hx]
      simpa [hst1] using this
    have hvis1 : ∀ i, i < k → (s + 1) + i ∉ st1.visited := by
      intro i hik
      have h1 := hvis (i + 1) (by omega)
      have hx : (s + 1) + i = s + (i + 1) := by omega
      rw [hx]
      simp only [hst1, List.mem_cons]
      rintro (hcase | hcase)
      · omega
      · exact h1 hcase
    have hih := ih (s + 1) st1 fuel' rfl (Nat.succ_pos s) hstore1 hvis1
      (by simpa [hst1] using hf) (by omega)
    have hunfold : skipAdvance s (k + 1) st = skipAdvance (s + 1) k st1 := rfl
    refine ⟨fun R => ?_, ?_, ?_, ?_, ?_, ?_⟩
    · have hL : walkLoop R b (fuel' + 1) st = walkLoop R b fuel' st1 := by
        simp [walkLoop, hstep R]
      rw [hL, hih.1 R, hunfold]
      congr 1
      omega
    · rw [hunfold, hih.2.1]
      congr 1
      omega
    · rw [hunfold, hih.2.2.1]
    · rw [hunfold, hih.2.2.2.1]
    · rw [hunfold, hih.2.2.2.2.1]
    · rw [hunfold, hih.2.2.2.2.2]
      simp [hst1]
      omega

/-- C9 witness: sections 1 and 2 are cached; even against a remote whose
every page's next link points back to section 1, the walk skips them in
sequential order and stands at candidate 3 with no fetch logged. -/
theorem cached_prefix_sequential_witness :
    walkLoop ⟨fun _ _ => some ⟨600, some 1⟩, fun _ => none⟩ 4 2
      ⟨some 1, [], 1, 0, 0, [], [1, 2], []⟩ =
      skipAdvance 1 2 ⟨some 1, [], 1, 0, 0, [], [1, 2], []⟩ ∧
    (skipAdvance 1 2 ⟨some 1, [], 1, 0, 0, [], [1, 2], []⟩).current = some 3 ∧
    (skipAdvance 1 2 ⟨some 1, [], 1, 0, 0, [], [1, 2], []⟩).log = [] := by
  have h := cached_prefix_sequential 4 2 1
    ⟨some 1, [], 1, 0, 0, [], [1, 2], []⟩ 2 rfl (by decide) (by decide)
    (by decide) (by decide) (by decide)
  exact ⟨h.1 ⟨fun _ _ => some ⟨600, some 1⟩, fun _ => none⟩, h.2.1, h.2.2.1⟩

/-- Running the walk loop over `k` consecutive failing candidates starting
at section `s`, with the failure counter set to reach the ceiling exactly
after the `k`-th failure, ends the walk in the `failAdvance` state: each
failed fetch advances sequentially, and once the counter reaches the ceiling
the while condition fails, whatever fuel remains. -/
theorem fail_run (R : Remote) (b : Nat) :
    ∀ (k s : Nat) (st : WalkState) (fuel : Nat),
      st.current = some s → 0 < s →
      (∀ i, i < k → fetchFailsB R b (s + i) = true) →
      (∀ i, i < k → s + i ∉ st.visited) →
      (∀ i, i < k → s + i ∉ st.store) →
      st.failures + k = maxConsecutiveFailures →
      k ≤ fuel →
      walkLoop R b fuel st = failAdvance b s k st := by
  intro k
  induction k with
  | zero =>
    intro s st fuel hc hs hfail hvis hstore hfk hfuel
    have h5 : maxConsecutiveFailures ≤ st.failures := by omega
    cases fuel with
    | zero => rfl
    | succ fuel =>
      by_cases hv : s ∈ st.visited
      · simp [walkLoop, walkStep, hc, hv, failAdvance]
      · simp [walkLoop, walkStep, hc, hv, h5, failAdvance]
  | succ k ih =>
    intro s st fuel hc hs hfail hvis hstore hfk hfuel
    have hv0 : s ∉ st.visited := by simpa using hvis 0 (Nat.succ_pos k)
    have hs0 : s ∉ st.store := by simpa using hstore 0 (Nat.succ_pos k)
    have hne : s ≠ 0 := Nat.pos_iff_ne_zero.mp hs
    have hf' : ¬ (maxConsecutiveFailures ≤ st.failures) := by omega
    have hfail0 : fetchFailsB R b s = true := by
      simpa using hfail 0 (Nat.succ_pos k)
    obtain ⟨fuel', rfl⟩ : ∃ f', fuel = f' + 1 := ⟨fuel - 1, by omega⟩
    set st1 : WalkState := { st with
      errors := st.errors ++ [CrawlErr.fetchSectionFailed s]
      visited := s :: st.visited
      failures := st.failures + 1
      current := some (s + 1)
      log := st.log ++ [FetchEvent.currentFetch b s] } with hst1
    have hstep : walkStep R b st = some st1 := by
      unfold fetchFailsB at hfail0
      cases hp : R.pages b s with
      | none => simp [walkStep, hc, hv0, hs0, hne, hf', hp, hst1]
      | some p =>
        rw [hp] at hfail0
        simp only [decide_eq_true_eq] at hfail0
        simp [walkStep, hc, hv0, hs0, hne, hf', hp, hfail0, hst1]
    have hfail1 : ∀ i, i < k → fetchFailsB R b ((s + 1) + i) = true := by
      intro i hik
      have hx : (s + 1) + i = s + (i + 1) := by omega
      rw [hx]
      exact hfail (i + 1) (by omega)
    have hvis1 : ∀ i, i < k → (s + 1) + i ∉ st1.visited := by
      intro i hik
      have h1 := hvis (i + 1) (by omega)
      have hx : (s + 1) + i = s + (i + 1) := by omega
      rw [hx]
      simp only [hst1, List.mem_cons]
      rintro (hcase | hcase)
      · omega
      · exact h1 hcase
    have hstore1 : ∀ i, i < k → (s + 1) + i ∉ st1.store := by
      intro i hik
      have hx : (s + 1) + i = s + (i + 1) := by omega
      rw [hx]
      simpa [hst1] using hstore (i + 1) (by omega)
    have hnext := ih (s + 1) st1 fuel' rfl (Nat.succ_pos s) hfail1 hvis1
      hstore1 (by simp [hst1]; omega) (by omega)
    have hL : walkLoop R b (fuel' + 1) st = walkLoop R b fuel' st1 := by
      simp [walkLoop, hstep]
    rw [hL, hnext]
    rfl

/-- Field bookkeeping of `failAdvance`: `k` consecutive failures add `k` to
the failure counter and leave the page count and the store unchanged. -/
theorem failAdvance_fields (b : Nat) :
    ∀ (k s : Nat) (st : WalkState),
      (failAdvance b s k st).failures = st.failures + k ∧
      (failAdvance b s k st).totalPages = st.totalPages ∧
      (failAdvance b s k st).store = st.store := by
  intro k
  induction k with
  | zero => intro s st; exact ⟨(Nat.add_zero _).symm, rfl, rfl⟩
  | succ k ih =>
    intro s st
    refine ⟨?_, ?_, ?_⟩
    · rw [failAdvance, (ih _ _).1]
      show st.failures + 1 + k = st.failures + (k + 1)
      omega
    · rw [failAdvance, (ih _ _).2.1]
    · rw [failAdvance, (ih _ _).2.2]

/-- C4: a walk that reaches 5 consecutive per-address failures stops at that
point: the loop exits (extra fuel changes nothing), the failure counter
stands at the ceiling, no further page was gathered, and the unconditional
postlude produces a record with status `complete` (not `failed`) whose
`total_pages` is the count gathered before the ceiling, with `crawl_book`
reporting success (return value `True`). -/
theorem failure_ceiling_complete (R : Remote) (b s : Nat) (st : WalkState)
    (fuel : Nat) (hc : st.current = some s) (hs : 0 < s)
    (hf0 : st.failures = 0)
    (hfail : ∀ i, i < 5 → fetchFailsB R b (s + i) = true)
    (hvis : ∀ i, i < 5 → s + i ∉ st.visited)
    (hstore : ∀ i, i < 5 → s + i ∉ st.store)
    (hfuel : 5 ≤ fuel) :
    walkLoop R b fuel st = walkLoop R b 5 st ∧
    (walkLoop R b fuel st).failures = maxConsecutiveFailures ∧
    (walkLoop R b fuel st).totalPages = st.totalPages ∧
    (walkLoop R b fuel st).store = st.store ∧
    finishWalk (walkLoop R b fuel st) =
      { status := CrawlStatus.complete
        totalPages := st.totalPages
        errors := (walkLoop R b fuel st).errors
        success := true
        store := st.store
        log := (walkLoop R b fuel st).log } := by
  have h1 : walkLoop R b fuel st = failAdvance b s 5 st :=
    fail_run R b 5 s st fuel hc hs hfail hvis hstore
      (by simp [maxConsecutiveFailures, hf0]) hfuel
  have h2 : walkLoop R b 5 st = failAdvance b s 5 st :=
    fail_run R b 5 s st 5 hc hs hfail hvis hstore
      (by simp [maxConsecutiveFailures, hf0]) le_rfl
  have hfields := failAdvance_fields b 5 s st
  refine ⟨h1.trans h2.symm, ?_, ?_, ?_, ?_⟩
  · rw [h1, hfields.1, hf0]
    decide
  · rw [h1, hfields.2.1]
  · rw [h1, hfields.2.2]
  · rw [h1]
    unfold finishWalk
    rw [hfields.2.1, hfields.2.2]

/-- C4 witness: every fetch fails for book 3; after the 5 failing sections
1–5 the walk stops with the counter at the ceiling and a `complete`,
successful record counting 0 pages. -/
theorem failure_ceiling_complete_witness :
    finishWalk (walkLoop ⟨fun _ _ => none, fun _ => none⟩ 3 9
        ⟨some 1, [], 1, 0, 0, [], [], []⟩) =
      { status := CrawlStatus.complete
        totalPages := 0
        errors := (walkLoop ⟨fun _ _ => none, fun _ => none⟩ 3 9
          ⟨some 1, [], 1, 0, 0, [], [], []⟩).errors
        success := true
        store := []
        log := (walkLoop ⟨fun _ _ => none, fun _ => none⟩ 3 9
          ⟨some 1, [], 1, 0, 0, [], [], []⟩).log } ∧
    (walkLoop ⟨fun _ _ => none, fun _ => none⟩ 3 9
      ⟨some 1, [], 1, 0, 0, [], [], []⟩).failures = maxConsecutiveFailures := by
  have h := failure_ceiling_complete ⟨fun _ _ => none, fun _ => none⟩ 3 1
    ⟨some 1, [], 1, 0, 0, [], [], []⟩ 9 rfl (by decide) rfl (by decide)
    (by decide) (by decide) (by decide)
  exact ⟨h.2.2.2.2, h.2.1⟩

/-- C3 counterexample: section 1 of book 22 does not exist and the TOC's
embedded links reference sections [7, 5] in document order; the lowest
referenced SectionIndex is 5, but start discovery takes `content_links[0]`
— the first link in document order — and starts the walk at 7, not 5. -/
theorem toc_lowest_counterexample :
    (startDiscovery ⟨fun _ s => if s = 1 then none else some ⟨600, none⟩,
        fun _ => some [7, 5]⟩ 22).1 = StartOutcome.startAt 7 ∧
    ([7, 5] : List Nat).min? = some 5 ∧
    StartOutcome.startAt 7 ≠ StartOutcome.startAt 5 := by
  refine ⟨by decide, by decide, by decide⟩

/-- C3 amended: when the section-1 page is unusable (fetch failed or body
shorter than 500), start discovery falls back to the TOC page and chooses
the FIRST section referenced by the TOC's embedded links in document order;
this coincides with the lowest referenced SectionIndex exactly when the
first link is minimal — e.g. for a TOC listing its sections in ascending
order starting at 5, the walk starts at section 5. -/
theorem toc_first_link_start (R : Remote) (b l : Nat) (ls : List Nat)
    (h1 : section1Unusable R b = true) (h2 : R.toc b = some (l :: ls)) :
    (startDiscovery R b).1 = StartOutcome.startAt l ∧
    ((∀ x ∈ ls, l ≤ x) → (l :: ls).min? = some l) := by
  constructor
  · unfold startDiscovery
    unfold section1Unusable at h1
    cases hp : R.pages b 1 with
    | none => simp [hp, h2]
    | some p =>
      rw [hp] at h1
      simp only [decide_eq_true_eq] at h1
      simp [hp, h2, h1]
  · intro hmin
    have haux : ∀ (ys : List Nat) (a : Nat), (∀ x ∈ ys, a ≤ x) →
        List.foldl min a ys = a := by
      intro ys
      induction ys with
      | nil => intro a _; rfl
      | cons y ys ihy =>
        intro a ha
        simp only [List.foldl_cons]
        rw [Nat.min_eq_left (ha y (by simp))]
        exact ihy a (fun x hx => ha x (by simp [hx]))
    show some (List.foldl min l ls) = some l
    rw [haux ls l hmin]

/-- C3 amended witness: a failing section 1 with TOC links [5, 9] makes the
walk start at 5, the lowest referenced index. -/
theorem toc_first_link_start_witness :
    (startDiscovery ⟨fun _ _ => none, fun _ => some [5, 9]⟩ 22).1 =
      StartOutcome.startAt 5 ∧
    ([5, 9] : List Nat).min? = some 5 := by
  have h := toc_first_link_start ⟨fun _ _ => none, fun _ => some [5, 9]⟩ 22
    5 [9] (by decide) rfl
  exact ⟨h.1, h.2 (by decide)⟩

/-- Single-step frame facts used by the store-gating invariant: a walk step
never removes sections from the store, and any current-candidate fetch it
newly logs for a positive section concerns a section that was not in the
store when the step ran. -/
theorem walkStep_log_store (R : Remote) (b : Nat) (st st' : WalkState)
    (h : walkStep R b st = some st') :
    (∀ x, x ∈ st.store → x ∈ st'.store) ∧
    (∀ u, u ≠ 0 → FetchEvent.currentFetch b u ∈ st'.log →
      FetchEvent.currentFetch b u ∈ st.log ∨ u ∉ st.store) := by
  unfold walkStep at h
  cases hcu : st.current with
  | none => rw [hcu] at h; exact absurd h (by simp)
  | some u0 =>
    rw [hcu] at h
    dsimp only at h
    by_cases hv : u0 ∈ st.visited
    · simp [hv] at h
    · rw [if_neg hv] at h
      by_cases hfc : maxConsecutiveFailures ≤ st.failures
      · simp [hfc] at h
      · rw [if_neg hfc] at h
        by_cases hsk : u0 ≠ 0 ∧ u0 ∈ st.store
        · rw [if_pos hsk] at h
          injection h with h
          subst h
          exact ⟨fun x hx => hx, fun u hu hmem => Or.inl hmem⟩
        · rw [if_neg hsk] at h
          have hlogmem : ∀ u : Nat, u ≠ 0 →
              FetchEvent.currentFetch b u
                ∈ st.log ++ [FetchEvent.currentFetch b u0] →
              FetchEvent.currentFetch b u ∈ st.log ∨ u ∉ st.store := by
            intro u hu hmem
            rcases List.mem_append.mp hmem with hmem | hmem
            · exact Or.inl hmem
            · simp only [List.mem_singleton] at hmem
              injection hmem with h1 h2
              subst h2
              exact Or.inr (fun hin => hsk ⟨hu, hin⟩)
          cases hp : R.pages b u0 with
          | none =>
            rw [hp] at h
            injection h with h
            subst h
            exact ⟨fun x hx => hx, hlogmem⟩
          | some p =>
            rw [hp] at h
            dsimp only at h
            by_cases hlen : p.length < 500
            · rw [if_pos hlen] at h
              injection h with h
              subst h
              exact ⟨fun x hx => hx, hlogmem⟩
            · rw [if_neg hlen] at h
              cases hns : p.nextSec with
              | some n =>
                rw [hns] at h
                dsimp only at h
                injection h with h
                subst h
                exact ⟨fun x hx => List.mem_cons_of_mem _ hx, hlogmem⟩
              | none =>
                rw [hns] at h
                dsimp only at h
                by_cases h0 : u0 ≠ 0
                · rw [if_pos h0] at h
                  cases hq : R.pages b (u0 + 1) with
                  | some q =>
                    rw [hq] at h
                    dsimp only at h
                    injection h with h
                    subst h
                    refine ⟨fun x hx => List.mem_cons_of_mem _ hx, ?_⟩
                    intro u hu hmem
                    simp only [List.append_assoc, List.mem_append,
                      List.mem_singleton] at hmem
                    rcases hmem with hmem | hmem | hmem
                    · exact Or.inl hmem
                    · injection hmem with h1 h2
                      subst h2
                      exact Or.inr (fun hin => hsk ⟨hu, hin⟩)
                    · exact absurd hmem (by simp)
                  | none =>
                    rw [hq] at h
                    dsimp only at h
                    injection h with h
                    subst h
                    refine ⟨fun x hx => List.mem_cons_of_mem _ hx, ?_⟩
                    intro u hu hmem
                    simp only [List.append_assoc, List.mem_append,
                      List.mem_singleton] at hmem
                    rcases hmem with hmem | hmem | hmem
                    · exact Or.inl hmem
                    · injection hmem with h1 h2
                      subst h2
                      exact Or.inr (fun hin => hsk ⟨hu, hin⟩)
                    · exact absurd hmem (by simp)
                · rw [if_neg h0] at h
                  injection h with h
                  subst h
                  exact ⟨fun x hx => List.mem_cons_of_mem _ hx, hlogmem⟩

/-- C1 amended: within the walk loop, artifact existence does gate the
fetching of the current candidate — a positive section that is in the store
when the walk starts is never fetched as the current candidate during that
walk (any newly logged current-candidate fetch concerns a section that was
not in the store).  The original claim fails only for the probes: the
start-discovery probe of section 1 and the no-next-button probes are issued
without consulting the store (see the counterexample). -/
theorem store_gates_current_fetch (R : Remote) (b : Nat) :
    ∀ (fuel : Nat) (st : WalkState) (u : Nat), u ≠ 0 →
      FetchEvent.currentFetch b u ∉ st.log →
      FetchEvent.currentFetch b u ∈ (walkLoop R b fuel st).log →
      u ∉ st.store := by
  intro fuel
  induction fuel with
  | zero => intro st u hu hnot hin; exact absurd hin hnot
  | succ fuel ih =>
    intro st u hu hnot hin
    cases hstep : walkStep R b st with
    | none =>
      simp only [walkLoop, hstep] at hin
      exact absurd hin hnot
    | some st' =>
      simp only [walkLoop, hstep] at hin
      have hframe := walkStep_log_store R b st st' hstep
      by_cases hin' : FetchEvent.currentFetch b u ∈ st'.log
      · rcases hframe.2 u hu hin' with hcase | hcase
        · exact absurd hcase hnot
        · exact hcase
      · intro hstore
        exact ih st' u hu hin' hin (hframe.1 u hstore)

/-- C1 amended witness: in a fresh run against a one-page book, section 2 is
fetched as a current candidate (its fetch appears in the final log), and the
theorem concludes it was not in the (empty) starting store. -/
theorem store_gates_current_fetch_witness :
    (2 : Nat) ∉ ([] : List Nat) :=
  store_gates_current_fetch
    ⟨fun _ s => if s = 1 then some ⟨600, some 2⟩ else none, fun _ => some []⟩
    22 10 ⟨some 1, [], 1, 0, 0, [], [], []⟩ 2 (by decide) (by decide)
    (by decide)

/-- C1 counterexample: the persisted artifact is NOT the sole gate on
fetching.  Run 1 of `crawl_book` on book 22 (a one-page book) persists
section 1.  Run 2, with the store left intact, still issues a network fetch
of the page URL of section 1 — the unconditional start-discovery probe
(`test_html = self._fetch_url(current_url, thread_id)`) runs before any
store check, so a SectionIndex whose artifact exists is fetched again. -/
theorem persisted_address_refetched_counterexample :
    (crawl_book ⟨fun _ s => if s = 1 then some ⟨600, some 2⟩ else none,
        fun _ => some []⟩ 22 [] 20).store = [1] ∧
    FetchEvent.startProbe 22 1 ∈
      (crawl_book ⟨fun _ s => if s = 1 then some ⟨600, some 2⟩ else none,
          fun _ => some []⟩ 22
        (crawl_book ⟨fun _ s => if s = 1 then some ⟨600, some 2⟩ else none,
            fun _ => some []⟩ 22 [] 20).store 20).log := by
  constructor
  · decide
  · decide

/-- Accumulator form of the pool's counting loop: folding the submitted ids
from any starting counts adds the number of successful results to the first
component and the number of non-successful results (False or exception) to
the second. -/
theorem pool_counts (run : Nat → Except Nat Bool × List MetaWrite) :
    ∀ (ids : List Nat) (a c : Nat),
      List.foldl (poolStep run) (a, c) ids
        = (a + ids.countP (fun i => isOkTrue (run i).1),
           c + ids.countP (fun i => !isOkTrue (run i).1)) := by
  intro ids
  induction ids with
  | nil => intro a c; simp
  | cons id ids ih =>
    intro a c
    rw [List.foldl_cons]
    cases hrun : (run id).1 with
    | ok v =>
      cases v with
      | true =>
        have h1 : poolStep run (a, c) id = (a + 1, c) := by
          simp [poolStep, hrun]
        rw [h1, ih]
        simp [List.countP_cons, isOkTrue, hrun]
        omega
      | false =>
        have h1 : poolStep run (a, c) id = (a, c + 1) := by
          simp [poolStep, hrun]
        rw [h1, ih]
        simp [List.countP_cons, isOkTrue, hrun]
        omega
    | error e =>
      have h1 : poolStep run (a, c) id = (a, c + 1) := by
        simp [poolStep, hrun]
      rw [h1, ih]
      simp [List.countP_cons, isOkTrue, hrun]
      omega

/-- C2 counterexample: an unexpected exception inside the walk (here raised
while persisting section 1) is NOT caught by `crawl_book` and no CrawlRecord
is written for the document — the write list is empty, refuting "a
CrawlRecord with status `failed` is still written"; the pool catches the
re-raised exception and counts both submitted books as failed. -/
theorem walk_exception_no_record_counterexample :
    crawl_bookE ⟨fun _ s => if s = 1 then some ⟨600, none⟩ else none,
        fun _ => some []⟩ 22 (fun u => if u = 1 then some 7 else none) [] 10
      = (Except.error 7, []) ∧
    crawl_books_from_file
      (fun _ => crawl_bookE
        ⟨fun _ s => if s = 1 then some ⟨600, none⟩ else none,
          fun _ => some []⟩ 22 (fun u => if u = 1 then some 7 else none) [] 10)
      [22, 23] = (0, 2) := by
  exact ⟨rfl, rfl⟩

/-- C2 amended: an unexpected exception during the walk propagates out of
`crawl_book` before the final `_save_metadata`, so no CrawlRecord is written
for that document (third conjunct: the raising run yields the propagated
exception and an empty write list); the worker pool's result handler is what
catches it: the pool's counts cover every submitted id (first conjunct), and
a book whose run raises contributes exactly one failure while the remaining
books are still processed (second conjunct). -/
theorem walk_exception_pool_amended :
    (∀ (run : Nat → Except Nat Bool × List MetaWrite) (ids : List Nat),
      crawl_books_from_file run ids
        = (ids.countP (fun i => isOkTrue (run i).1),
           ids.countP (fun i => !isOkTrue (run i).1))) ∧
    (∀ (run : Nat → Except Nat Bool × List MetaWrite) (id : Nat)
       (ids : List Nat) (e : Nat),
      (run id).1 = Except.error e →
      crawl_books_from_file run (id :: ids)
        = ((crawl_books_from_file run ids).1,
           (crawl_books_from_file run ids).2 + 1)) ∧
    (∀ (R : Remote) (b : Nat) (saveErr : Nat → Option Nat)
       (store0 : List Nat) (fuel s : Nat) (log : List FetchEvent) (e : Nat),
      startDiscovery R b = (StartOutcome.startAt s, log) →
      walkLoopE R b saveErr fuel
        ⟨some s, [], 1, 0, 0, [], store0, log⟩ = Except.error e →
      crawl_bookE R b saveErr store0 fuel = (Except.error e, [])) := by
  have hbase : ∀ (run : Nat → Except Nat Bool × List MetaWrite)
      (ids : List Nat),
      crawl_books_from_file run ids
        = (ids.countP (fun i => isOkTrue (run i).1),
           ids.countP (fun i => !isOkTrue (run i).1)) := by
    intro run ids
    unfold crawl_books_from_file
    rw [pool_counts run ids 0 0]
    simp
  refine ⟨hbase, ?_, ?_⟩
  · intro run id ids e hrun
    rw [hbase run (id :: ids), hbase run ids]
    simp [List.countP_cons, isOkTrue, hrun]
  · intro R b saveErr store0 fuel s log e hstart hwalk
    unfold crawl_bookE
    rw [hstart]
    dsimp only
    rw [hwalk]

/-- C2 amended witness: a save failure on section 1 of book 5 propagates as
exception 9 with nothing written, and a pool whose every run raises counts
one more failure for the extra book while still processing the rest. -/
theorem walk_exception_pool_amended_witness :
    crawl_bookE ⟨fun _ s => if s = 1 then some ⟨600, none⟩ else none,
        fun _ => some []⟩ 5 (fun _ => some 9) [] 10 = (Except.error 9, []) ∧
    crawl_books_from_file (fun _ => (Except.error 9, [])) [1, 2]
      = ((crawl_books_from_file (fun _ => (Except.error 9, [])) [2]).1,
         (crawl_books_from_file (fun _ => (Except.error 9, [])) [2]).2 + 1) := by
  constructor
  · exact walk_exception_pool_amended.2.2
      ⟨fun _ s => if s = 1 then some ⟨600, none⟩ else none, fun _ => some []⟩
      5 (fun _ => some 9) [] 10 1 [FetchEvent.startProbe 5 1] 9 rfl rfl
  · exact walk_exception_pool_amended.2.1 (fun _ => (Except.error 9, [])) 1
      [2] 9 rfl
